import Mathlib

/-!
Shallow embedding of tornado's C extension modules and proofs about them:

* `speedups.c` — `websocket_mask`: byte-wise XOR masking loop.
* `_websocket_unmask.c` — `Module_unmask_frame`: mask-length check, packed
  32-bit word loop, byte-wise remainder loop.
* `epoll.c` — `_epoll_wait`: wrapper around the kernel wait call, plus the
  fixed batch capacity `MAX_EVENTS`.

Bytes are modelled as `Nat` values below 256 (the C `unsigned char`); 32-bit
words are `Nat` with explicit `% 256` truncation where the C stores bytes.
The pointer reinterpretation `(unsigned int *)` over byte memory in
`_websocket_unmask.c` is modelled little-endian, the byte layout that the
mask-packing expression `mask_str[3] << 24 | ... | mask_str[0]` in that file
assumes.
-/

namespace Tornado

/-- Loop body of `websocket_mask` in `speedups.c`: `buf[i] = data[i] ^ mask[i % 4]`
for `i` ascending, carried as the first `Nat` argument. The mask access is
guarded: an out-of-bounds read (undefined behaviour in C) yields `none`. -/
def websocketMaskGo (mask : List Nat) : Nat → List Nat → Option (List Nat)
  | _, [] => some []
  | i, b :: rest =>
    match mask[i % 4]?, websocketMaskGo mask (i + 1) rest with
    | some mb, some out => some ((b ^^^ mb) :: out)
    | _, _ => none

/-- Embeds `websocket_mask` from `speedups.c`: allocate a buffer of `data`'s
length and fill it with `data[i] ^ mask[i % 4]`. No mask-length validation is
performed by the C function. -/
def websocket_mask (mask data : List Nat) : Option (List Nat) :=
  websocketMaskGo mask 0 data

/-- Total byte-wise masking starting at byte index `i`: position `j` of the
result is `data[j] XOR mask[(i + j) mod 4]`. At `i = 0` this is the byte-wise
reference transformation that `websocket_mask`'s loop computes when every mask
access is in bounds. -/
def maskBytesFrom (mask : List Nat) : Nat → List Nat → List Nat
  | _, [] => []
  | i, b :: rest => (b ^^^ mask.getD (i % 4) 0) :: maskBytesFrom mask (i + 1) rest

/-- Embeds the mask packing in `_websocket_unmask.c`:
`mask_str[3] << 24 | mask_str[2] << 16 | mask_str[1] << 8 | mask_str[0]`,
which is also the value a little-endian load of the four bytes
`b0, b1, b2, b3` produces. -/
def leWord (b0 b1 b2 b3 : Nat) : Nat :=
  (b3 <<< 24) ||| (b2 <<< 16) ||| (b1 <<< 8) ||| b0

/-- Little-endian byte layout of a 32-bit word stored through
`*output_multi` in `_websocket_unmask.c`. -/
def leBytes (w : Nat) : List Nat :=
  [w % 256, (w >>> 8) % 256, (w >>> 16) % 256, (w >>> 24) % 256]

/-- Embeds the two loops of `Module_unmask_frame`: while at least four input
bytes remain, XOR a whole little-endian word with the packed mask
(`*output_multi++ = *input_multi++ ^ mask`, `input_length / 4` iterations);
the remaining `input_length & 3` bytes are XORed byte-wise against
`mask_str[0], mask_str[1], mask_str[2]` (`*output++ = *input++ ^ *mask_str++`,
with `mask_str` still at the start of the mask). -/
def unmaskCore (m0 m1 m2 m3 : Nat) : List Nat → List Nat
  | b0 :: b1 :: b2 :: b3 :: rest =>
    leBytes (leWord b0 b1 b2 b3 ^^^ leWord m0 m1 m2 m3) ++ unmaskCore m0 m1 m2 m3 rest
  | [] => []
  | [b0] => [b0 ^^^ m0]
  | [b0, b1] => [b0 ^^^ m0, b1 ^^^ m1]
  | [b0, b1, b2] => [b0 ^^^ m0, b1 ^^^ m1, b2 ^^^ m2]

/-- Embeds `Module_unmask_frame` from `_websocket_unmask.c`: reject a mask
whose length is not 4 with a `TypeError` naming the received length; return
the empty byte sequence for zero-length input; otherwise run the word-tiered
XOR. The mask byte reads `mask_str[0..3]` are in bounds thanks to the length
check, so `getD` models them exactly. -/
def unmask_frame (input mask_str : List Nat) : Except String (List Nat) :=
  if mask_str.length ≠ 4 then
    .error ("the mask must be a string of length 4, not " ++ toString (mask_str.length))
  else if input.length = 0 then
    .ok []
  else
    .ok (unmaskCore (mask_str.getD 0 0) (mask_str.getD 1 0) (mask_str.getD 2 0)
      (mask_str.getD 3 0) input)

/-- Chunk widths consumed by the two loops of `Module_unmask_frame`, read off
the same recursion as `unmaskCore`: the word loop consumes 4 bytes per
iteration, the remainder loop 1 byte per iteration. -/
def unmaskCoreWidths : List Nat → List Nat
  | _ :: _ :: _ :: _ :: rest => 4 :: unmaskCoreWidths rest
  | [] => []
  | [_] => [1]
  | [_, _] => [1, 1]
  | [_, _, _] => [1, 1, 1]

/-- Chunk widths consumed by the loop of `websocket_mask` in `speedups.c`:
one byte per iteration, for every iteration. -/
def websocketMaskWidths : List Nat → List Nat
  | [] => []
  | _ :: rest => 1 :: websocketMaskWidths rest

/-- Modelled from the spec: the width ladder §4.1 claims for the engines —
process in 8-byte words, fall back to 4-byte words, fall back to single
bytes for the final remainder. Expressed as the chunk widths such a ladder
consumes on an input of length `n`. No such 8-byte tier exists in `src/`. -/
def specLadderWidths (n : Nat) : List Nat :=
  List.replicate (n / 8) 8 ++ List.replicate (n % 8 / 4) 4 ++ List.replicate (n % 4) 1

/-- Embeds `MAX_EVENTS` from `epoll.c`. -/
def MAX_EVENTS : Nat := 24

/-- One kernel-reported readiness record: the `events` bitmask and the
`data.fd` descriptor of a `struct epoll_event`. -/
structure EpollEvent where
  events : Nat
  fd : Int

/-- Outcome of the `epoll_wait` system call as seen by `_epoll_wait`:
either `-1` with an `errno`, or a count of filled `epoll_event` records. -/
inductive KernelWaitResult where
  | werror (errno : Nat)
  | wready (evs : List EpollEvent)

/-- Embeds `_epoll_wait` from `epoll.c` as a function of the kernel's
response: on kernel error, raise (carry the errno); otherwise build the list
of `(fd, events)` tuples in the kernel's order. The `take MAX_EVENTS` models
the `events[MAX_EVENTS]` array capacity passed to the kernel, which never
reports more records than that. -/
def epoll_wait : KernelWaitResult → Except Nat (List (Int × Nat))
  | .werror e => .error e
  | .wready evs => .ok ((evs.take MAX_EVENTS).map fun ev => (ev.fd, ev.events))

/-- Lifecycle states of the Readiness Poller handle (spec §4.3). -/
inductive PollerState where
  | unopened
  | opened
  | closed

/-- Operations on an already-created poller handle (spec §4.3). -/
inductive PollerOp where
  | register
  | modify
  | remove
  | wait
  | close

/-- Modelled from the spec: no `close()` wrapper exists in `epoll.c` (the
handle is closed by the caller); spec §4.3 defines the lifecycle
`Unopened → Open → Closed`, with `Open` the only state in which
register/modify/remove/wait are valid, `close()` moving to the terminal
`Closed` state, every operation on a closed handle failing deterministically,
and double-close itself an error. -/
def pollerStep : PollerState → PollerOp → Except String PollerState
  | .opened, .close => .ok .closed
  | .opened, _ => .ok .opened
  | .closed, _ => .error "operation on a closed poller handle"
  | .unopened, _ => .error "operation on an unopened poller handle"

/-! ### Arithmetic of the packed 32-bit word -/

theorem xor_split {a c : Nat} (b d : Nat) (ha : a < 2 ^ 8) (hc : c < 2 ^ 8) :
    (2 ^ 8 * b + a) ^^^ (2 ^ 8 * d + c) = 2 ^ 8 * (b ^^^ d) + (a ^^^ c) := by
  apply Nat.eq_of_testBit_eq
  intro j
  rw [Nat.testBit_xor, Nat.testBit_mul_pow_two_add _ ha, Nat.testBit_mul_pow_two_add _ hc,
    Nat.testBit_mul_pow_two_add _ (Nat.xor_lt_two_pow ha hc)]
  by_cases hj : j < 8 <;> simp [hj]

theorem leWord_eq {b0 b1 b2 : Nat} (b3 : Nat) (h0 : b0 < 256) (h1 : b1 < 256)
    (h2 : b2 < 256) :
    leWord b0 b1 b2 b3 = 2 ^ 8 * (2 ^ 8 * (2 ^ 8 * b3 + b2) + b1) + b0 := by
  have e1 : (2 : Nat) ^ 24 * b3 + 2 ^ 16 * b2 = 2 ^ 16 * (2 ^ 8 * b3 + b2) := by ring
  have e2 : (2 : Nat) ^ 16 * (2 ^ 8 * b3 + b2) + 2 ^ 8 * b1 =
      2 ^ 8 * (2 ^ 8 * (2 ^ 8 * b3 + b2) + b1) := by ring
  rw [leWord, Nat.shiftLeft_eq, Nat.shiftLeft_eq, Nat.shiftLeft_eq,
    Nat.mul_comm b3, Nat.mul_comm b2, Nat.mul_comm b1,
    ← Nat.mul_add_lt_is_or (show (2 : Nat) ^ 16 * b2 < 2 ^ 24 by nlinarith) b3, e1,
    ← Nat.mul_add_lt_is_or (show (2 : Nat) ^ 8 * b1 < 2 ^ 16 by nlinarith) _, e2,
    ← Nat.mul_add_lt_is_or (show b0 < 2 ^ 8 by norm_num; omega) _]

theorem leBytes_eq {c0 c1 c2 c3 : Nat} (h0 : c0 < 256) (h1 : c1 < 256) (h2 : c2 < 256)
    (h3 : c3 < 256) :
    leBytes (2 ^ 8 * (2 ^ 8 * (2 ^ 8 * c3 + c2) + c1) + c0) = [c0, c1, c2, c3] := by
  simp only [leBytes, Nat.shiftRight_eq_div_pow, List.cons.injEq, and_true]
  norm_num
  refine ⟨?_, ?_, ?_, ?_⟩ <;> omega

theorem leBytes_xor_leWord {b0 b1 b2 b3 m0 m1 m2 m3 : Nat}
    (hb0 : b0 < 256) (hb1 : b1 < 256) (hb2 : b2 < 256) (hb3 : b3 < 256)
    (hm0 : m0 < 256) (hm1 : m1 < 256) (hm2 : m2 < 256) (hm3 : m3 < 256) :
    leBytes (leWord b0 b1 b2 b3 ^^^ leWord m0 m1 m2 m3) =
      [b0 ^^^ m0, b1 ^^^ m1, b2 ^^^ m2, b3 ^^^ m3] := by
  have p : (256 : Nat) = 2 ^ 8 := by norm_num
  rw [leWord_eq b3 hb0 hb1 hb2, leWord_eq m3 hm0 hm1 hm2,
    xor_split _ _ (p ▸ hb0) (p ▸ hm0), xor_split _ _ (p ▸ hb1) (p ▸ hm1),
    xor_split _ _ (p ▸ hb2) (p ▸ hm2)]
  exact leBytes_eq (p ▸ Nat.xor_lt_two_pow (p ▸ hb0) (p ▸ hm0))
    (p ▸ Nat.xor_lt_two_pow (p ▸ hb1) (p ▸ hm1))
    (p ▸ Nat.xor_lt_two_pow (p ▸ hb2) (p ▸ hm2))
    (p ▸ Nat.xor_lt_two_pow (p ▸ hb3) (p ▸ hm3))

/-! ### The byte-wise reference transformation -/

theorem maskBytesFrom_length (mask : List Nat) (i : Nat) (d : List Nat) :
    (maskBytesFrom mask i d).length = d.length := by
  induction d generalizing i with
  | nil => rfl
  | cons b rest ih => simp [maskBytesFrom, ih]

theorem maskBytesFrom_getElem? (mask : List Nat) (i j : Nat) (d : List Nat) :
    (maskBytesFrom mask i d)[j]? =
      d[j]?.map (fun b => b ^^^ mask.getD ((i + j) % 4) 0) := by
  induction d generalizing i j with
  | nil => simp [maskBytesFrom]
  | cons b rest ih =>
    cases j with
    | zero => simp [maskBytesFrom]
    | succ j =>
      have e : i + 1 + j = i + (j + 1) := by omega
      simp only [maskBytesFrom, List.getElem?_cons_succ, ih, e]

theorem maskBytesFrom_add_four (mask : List Nat) (i : Nat) (d : List Nat) :
    maskBytesFrom mask (i + 4) d = maskBytesFrom mask i d := by
  induction d generalizing i with
  | nil => rfl
  | cons b rest ih =>
    simp only [maskBytesFrom, Nat.add_mod_right]
    rw [show i + 4 + 1 = i + 1 + 4 by omega, ih]

theorem maskBytesFrom_four (mask : List Nat) (d : List Nat) :
    maskBytesFrom mask 4 d = maskBytesFrom mask 0 d :=
  maskBytesFrom_add_four mask 0 d

theorem maskBytesFrom_involution (mask : List Nat) (i : Nat) (d : List Nat) :
    maskBytesFrom mask i (maskBytesFrom mask i d) = d := by
  induction d generalizing i with
  | nil => rfl
  | cons b rest ih => simp [maskBytesFrom, Nat.xor_cancel_right, ih]

/-! ### websocket_mask versus the reference -/

theorem websocketMaskGo_eq_some {mask : List Nat} (hm : 4 ≤ mask.length) (i : Nat)
    (d : List Nat) : websocketMaskGo mask i d = some (maskBytesFrom mask i d) := by
  induction d generalizing i with
  | nil => rfl
  | cons b rest ih =>
    have hlt : i % 4 < mask.length := lt_of_lt_of_le (Nat.mod_lt _ (by norm_num)) hm
    simp only [websocketMaskGo, maskBytesFrom, List.getElem?_eq_getElem hlt, ih,
      List.getD_eq_getElem?_getD, Option.getD_some]

theorem websocketMaskGo_none_iff (mask : List Nat) (i : Nat) (d : List Nat) :
    websocketMaskGo mask i d = none ↔
      ∃ j, j < d.length ∧ mask.length ≤ (i + j) % 4 := by
  induction d generalizing i with
  | nil => simp [websocketMaskGo]
  | cons b rest ih =>
    simp only [websocketMaskGo]
    constructor
    · intro h
      rcases h1 : mask[i % 4]? with _ | mb
      · exact ⟨0, by simp, by simpa using List.getElem?_eq_none_iff.mp h1⟩
      · rcases h2 : websocketMaskGo mask (i + 1) rest with _ | out
        · obtain ⟨j, hj, hle⟩ := (ih (i + 1)).mp h2
          exact ⟨j + 1, by simpa using hj, by rwa [show i + (j + 1) = i + 1 + j by omega]⟩
        · rw [h1, h2] at h
          simp at h
    · rintro ⟨j, hj, hle⟩
      cases j with
      | zero =>
        rw [List.getElem?_eq_none_iff.mpr (by simpa using hle)]
      | succ j =>
        rw [(ih (i + 1)).mpr ⟨j, by simpa using hj,
          by rwa [show i + 1 + j = i + (j + 1) by omega]⟩]
        rcases mask[i % 4]? with _ | mb <;> rfl

/-- C10 (amended): `websocket_mask` performs no validation of the mask's
length; each access it makes into the mask is at index `i mod 4` for
`i < data.length`, so some access is out of bounds — the embedding's guarded
index takes its error branch — exactly when the mask is shorter than
`min (data.length) 4`; in particular, under the precondition that the mask
has length 4 every access is in bounds and the call succeeds. -/
theorem websocket_mask_oob_iff (mask d : List Nat) :
    websocket_mask mask d = none ↔ mask.length < min d.length 4 := by
  rw [websocket_mask, websocketMaskGo_none_iff]
  constructor
  · rintro ⟨j, hj, hle⟩
    have h4 : j % 4 < 4 := Nat.mod_lt _ (by norm_num)
    have hjj : j % 4 ≤ j := Nat.mod_le _ _
    simp only [Nat.zero_add] at hle
    omega
  · intro h
    refine ⟨mask.length, by omega, ?_⟩
    have : mask.length % 4 = mask.length := Nat.mod_eq_of_lt (by omega)
    simp only [Nat.zero_add]
    omega

/-! ### The word-tiered unmask loop versus the reference -/

theorem unmaskCore_eq_maskBytesFrom {m0 m1 m2 m3 : Nat}
    (hm0 : m0 < 256) (hm1 : m1 < 256) (hm2 : m2 < 256) (hm3 : m3 < 256)
    (d : List Nat) (hd : ∀ x ∈ d, x < 256) :
    unmaskCore m0 m1 m2 m3 d = maskBytesFrom [m0, m1, m2, m3] 0 d := by
  induction d using unmaskCore.induct m0 m1 m2 m3 with
  | case1 b0 b1 b2 b3 rest ih =>
    have hb0 : b0 < 256 := hd _ (by simp)
    have hb1 : b1 < 256 := hd _ (by simp)
    have hb2 : b2 < 256 := hd _ (by simp)
    have hb3 : b3 < 256 := hd _ (by simp)
    have hrest : ∀ x ∈ rest, x < 256 := fun x hx => hd _ (by simp [hx])
    rw [unmaskCore, leBytes_xor_leWord hb0 hb1 hb2 hb3 hm0 hm1 hm2 hm3, ih hrest]
    simp only [maskBytesFrom]
    norm_num [List.getD, maskBytesFrom_four]
  | case2 => rfl
  | case3 b0 => rfl
  | case4 b0 b1 => rfl
  | case5 b0 b1 b2 => rfl

/-! ### Chunk-width traces -/

theorem unmaskCoreWidths_eq (d : List Nat) :
    unmaskCoreWidths d = List.replicate (d.length / 4) 4 ++ List.replicate (d.length % 4) 1 := by
  induction d using unmaskCoreWidths.induct with
  | case1 b0 b1 b2 b3 rest ih =>
    have e : (b0 :: b1 :: b2 :: b3 :: rest).length = rest.length + 4 := by
      simp
    rw [unmaskCoreWidths, ih, e, Nat.add_div_right _ (by norm_num), Nat.add_mod_right,
      List.replicate_succ, List.cons_append]
  | case2 => rfl
  | case3 b0 => norm_num [unmaskCoreWidths, List.replicate]
  | case4 b0 b1 => norm_num [unmaskCoreWidths, List.replicate]
  | case5 b0 b1 b2 => norm_num [unmaskCoreWidths, List.replicate]

theorem websocketMaskWidths_eq (d : List Nat) :
    websocketMaskWidths d = List.replicate d.length 1 := by
  induction d with
  | nil => rfl
  | cons b rest ih => simp [websocketMaskWidths, ih, List.replicate_succ]

/-- Shared helper: on a 4-byte mask and byte-valued data, `unmask_frame`
computes exactly the byte-wise reference transformation. -/
theorem unmask_frame_eq_ref {mask data : List Nat} (hm : mask.length = 4)
    (hmb : ∀ x ∈ mask, x < 256) (hdb : ∀ x ∈ data, x < 256) :
    unmask_frame data mask = .ok (maskBytesFrom mask 0 data) := by
  rcases mask with _ | ⟨m0, _ | ⟨m1, _ | ⟨m2, _ | ⟨m3, _ | ⟨m4, tail⟩⟩⟩⟩⟩ <;> simp at hm
  have hm0 : m0 < 256 := hmb _ (by simp)
  have hm1 : m1 < 256 := hmb _ (by simp)
  have hm2 : m2 < 256 := hmb _ (by simp)
  have hm3 : m3 < 256 := hmb _ (by simp)
  rw [unmask_frame, if_neg (by norm_num)]
  by_cases hz : data.length = 0
  · rw [if_pos hz, List.length_eq_zero.mp hz]
    rfl
  · rw [if_neg hz]
    simp only [List.getD_cons_zero, List.getD_cons_succ]
    rw [unmaskCore_eq_maskBytesFrom hm0 hm1 hm2 hm3 data hdb]

/-! ### Claim theorems -/

/-- C1: for every 4-byte mask and every byte-valued data buffer of length `n`,
both masking entry points — `websocket_mask` and `unmask_frame` — return an
output buffer of length `n` in which byte `i` equals
`data[i] XOR mask[i mod 4]` for every `i < n`. -/
theorem mask_entry_points_match_byte_reference {mask data : List Nat}
    (hm : mask.length = 4) (hmb : ∀ x ∈ mask, x < 256) (hdb : ∀ x ∈ data, x < 256) :
    ∃ out, websocket_mask mask data = some out ∧ unmask_frame data mask = .ok out ∧
      out.length = data.length ∧
      ∀ i, i < data.length → out[i]? = some (data.getD i 0 ^^^ mask.getD (i % 4) 0) := by
  refine ⟨maskBytesFrom mask 0 data, websocketMaskGo_eq_some (by omega) 0 data,
    unmask_frame_eq_ref hm hmb hdb, maskBytesFrom_length mask 0 data, fun i hi => ?_⟩
  rw [maskBytesFrom_getElem?, List.getElem?_eq_getElem hi]
  simp [List.getD_eq_getElem?_getD, List.getElem?_eq_getElem hi]

/-- C1 witness: the spec's end-to-end example, mask `12 34 56 78` over five
zero bytes. -/
theorem mask_entry_points_match_byte_reference_witness :
    ∃ out, websocket_mask [18, 52, 86, 120] [0, 0, 0, 0, 0] = some out ∧
      unmask_frame [0, 0, 0, 0, 0] [18, 52, 86, 120] = .ok out ∧
      out.length = 5 ∧
      ∀ i, i < 5 → out[i]? =
        some (List.getD [0, 0, 0, 0, 0] i 0 ^^^ List.getD [18, 52, 86, 120] (i % 4) 0) :=
  mask_entry_points_match_byte_reference (by decide) (by decide) (by decide)

/-- C2: applying `websocket_mask` twice with the same 4-byte mask returns the
original data. -/
theorem websocket_mask_involutive {mask data : List Nat} (hm : mask.length = 4) :
    ∃ once, websocket_mask mask data = some once ∧ websocket_mask mask once = some data := by
  refine ⟨maskBytesFrom mask 0 data, websocketMaskGo_eq_some (by omega) 0 data, ?_⟩
  rw [websocket_mask, websocketMaskGo_eq_some (by omega) 0, maskBytesFrom_involution]

/-- C2 witness: masking the spec's example twice restores the five zero bytes. -/
theorem websocket_mask_involutive_witness :
    ∃ once, websocket_mask [18, 52, 86, 120] [0, 0, 0, 0, 0] = some once ∧
      websocket_mask [18, 52, 86, 120] once = some [0, 0, 0, 0, 0] :=
  websocket_mask_involutive (by decide)

/-- C3: on every 4-byte mask and byte-valued data, `unmask_frame` and
`websocket_mask` produce the same byte contents. -/
theorem unmask_frame_agrees_with_websocket_mask {mask data : List Nat}
    (hm : mask.length = 4) (hmb : ∀ x ∈ mask, x < 256) (hdb : ∀ x ∈ data, x < 256) :
    ∃ out, unmask_frame data mask = .ok out ∧ websocket_mask mask data = some out :=
  ⟨maskBytesFrom mask 0 data, unmask_frame_eq_ref hm hmb hdb,
    websocketMaskGo_eq_some (by omega) 0 data⟩

/-- C3 witness: both engines on a length-9 buffer (two whole words plus one
remainder byte). -/
theorem unmask_frame_agrees_with_websocket_mask_witness :
    ∃ out, unmask_frame [1, 2, 3, 4, 5, 6, 7, 8, 9] [18, 52, 86, 120] = .ok out ∧
      websocket_mask [18, 52, 86, 120] [1, 2, 3, 4, 5, 6, 7, 8, 9] = some out :=
  unmask_frame_agrees_with_websocket_mask (by decide) (by decide) (by decide)

/-- C4: `unmask_frame` rejects every mask whose length is not 4 — for any
input buffer, including the empty one — with an error naming the actual
length received, and never fails this way on a mask of length 4. -/
theorem unmask_frame_mask_length_validation :
    (∀ (data mask : List Nat), mask.length ≠ 4 →
      unmask_frame data mask =
        .error ("the mask must be a string of length 4, not " ++ toString (mask.length))) ∧
    (∀ (data mask : List Nat), mask.length = 4 → ∃ out, unmask_frame data mask = .ok out) := by
  constructor
  · intro data mask h
    rw [unmask_frame, if_pos h]
  · intro data mask h
    rw [unmask_frame, if_neg (by omega)]
    by_cases hz : data.length = 0
    · exact ⟨[], by rw [if_pos hz]⟩
    · exact ⟨_, by rw [if_neg hz]⟩

/-- C4 witness: masks of length 3 and 5 fail with the lengths named; a mask
of length 4 succeeds. -/
theorem unmask_frame_mask_length_validation_witness :
    unmask_frame [0] [1, 2, 3] = .error "the mask must be a string of length 4, not 3" ∧
    unmask_frame [0] [1, 2, 3, 4, 5] =
      .error "the mask must be a string of length 4, not 5" ∧
    (∃ out, unmask_frame [0] [1, 2, 3, 4] = .ok out) :=
  ⟨(unmask_frame_mask_length_validation.1 [0] [1, 2, 3] (by decide)).trans
      (congrArg Except.error (by decide)),
   (unmask_frame_mask_length_validation.1 [0] [1, 2, 3, 4, 5] (by decide)).trans
      (congrArg Except.error (by decide)),
   unmask_frame_mask_length_validation.2 [0] [1, 2, 3, 4] (by decide)⟩

/-- C5: a kernel timeout with zero ready descriptors makes the wait call
succeed with an explicitly-empty batch, while a kernel error makes the call
fail — never return the empty batch — so the two outcomes are
distinguishable. -/
theorem epoll_wait_timeout_empty_error_raises :
    epoll_wait (.wready []) = .ok [] ∧
    ∀ e, epoll_wait (.werror e) = .error e ∧ epoll_wait (.werror e) ≠ .ok [] := by
  exact ⟨rfl, fun e => ⟨rfl, by simp [epoll_wait]⟩⟩

/-- C5 witness: instantiated at errno 9 (EBADF). -/
theorem epoll_wait_timeout_empty_error_raises_witness :
    epoll_wait (.wready []) = .ok [] ∧
      (epoll_wait (.werror 9) = .error 9 ∧ epoll_wait (.werror 9) ≠ .ok []) :=
  ⟨epoll_wait_timeout_empty_error_raises.1, epoll_wait_timeout_empty_error_raises.2 9⟩

/-- C6: for zero-length data both entry points return the empty byte
sequence; `websocket_mask` does so for a mask of any length without
examining the mask, while `unmask_frame` validates the mask length first, so
with empty data and a mask of length ≠ 4 it still fails. -/
theorem zero_length_data_yields_empty :
    (∀ mask : List Nat, websocket_mask mask [] = some []) ∧
    (∀ mask : List Nat, mask.length = 4 → unmask_frame [] mask = .ok []) ∧
    (∀ mask : List Nat, mask.length ≠ 4 →
      unmask_frame [] mask =
        .error ("the mask must be a string of length 4, not " ++ toString (mask.length))) := by
  refine ⟨fun mask => rfl, fun mask h => ?_, fun mask h => by rw [unmask_frame, if_pos h]⟩
  simp [unmask_frame, h]

/-- C6 witness: empty data with a 1-byte mask, a 4-byte mask, and a 3-byte
mask. -/
theorem zero_length_data_yields_empty_witness :
    websocket_mask [7] [] = some [] ∧ unmask_frame [] [18, 52, 86, 120] = .ok [] ∧
      unmask_frame [] [1, 2, 3] = .error "the mask must be a string of length 4, not 3" :=
  ⟨zero_length_data_yields_empty.1 [7],
   zero_length_data_yields_empty.2.1 [18, 52, 86, 120] (by decide),
   (zero_length_data_yields_empty.2.2 [1, 2, 3] (by decide)).trans
      (congrArg Except.error (by decide))⟩

/-- C7 (spec-modelled): `close()` on an open handle reaches the terminal
`Closed` state, after which every operation — a second `close()` included —
fails with a reported error. -/
theorem poller_close_terminal :
    pollerStep .opened .close = .ok .closed ∧
    ∀ op, pollerStep .closed op = .error "operation on a closed poller handle" := by
  refine ⟨rfl, fun op => ?_⟩
  cases op <;> rfl

/-- C7 witness: double-close is itself a reported error. -/
theorem poller_close_terminal_witness :
    pollerStep .opened .close = .ok .closed ∧
      pollerStep .closed .close = .error "operation on a closed poller handle" :=
  ⟨poller_close_terminal.1, poller_close_terminal.2 .close⟩

/-- C8: every wait call returns a batch of at most `MAX_EVENTS = 24`
`(descriptor, event-bitmask)` pairs, one pair per kernel-reported record, in
the kernel's order. -/
theorem epoll_wait_batch_capacity (evs : List EpollEvent) :
    ∃ l, epoll_wait (.wready evs) = .ok l ∧ l.length ≤ MAX_EVENTS ∧
      l.length = min MAX_EVENTS evs.length ∧
      ∀ i : Nat, l[i]? = ((evs.take MAX_EVENTS)[i]?).map fun ev : EpollEvent => (ev.fd, ev.events) := by
  refine ⟨_, rfl, ?_, ?_, fun i => ?_⟩
  · simp only [List.length_map, List.length_take]
    omega
  · simp only [List.length_map, List.length_take]
  · simp only [List.getElem?_map]

/-- C8 witness: two kernel records map to two pairs in order. -/
theorem epoll_wait_batch_capacity_witness :
    ∃ l, epoll_wait (.wready [⟨1, 7⟩, ⟨4, 8⟩]) = .ok l ∧ l.length ≤ MAX_EVENTS ∧
      l.length = min MAX_EVENTS 2 ∧
      ∀ i : Nat, l[i]? = ((([⟨1, 7⟩, ⟨4, 8⟩] : List EpollEvent).take MAX_EVENTS)[i]?).map
        fun ev : EpollEvent => (ev.fd, ev.events) :=
  epoll_wait_batch_capacity [⟨1, 7⟩, ⟨4, 8⟩]

/-- C9 counterexample: on an 8-byte input neither engine consumes an 8-byte
chunk — `unmask_frame`'s loops consume two 4-byte chunks and
`websocket_mask`'s loop eight single bytes — refuting the claimed
8-byte-first ladder at a concrete input. -/
theorem no_eight_byte_tier_at_length_eight :
    unmaskCoreWidths (List.replicate 8 0) = [4, 4] ∧
    websocketMaskWidths (List.replicate 8 0) = [1, 1, 1, 1, 1, 1, 1, 1] ∧
    specLadderWidths 8 = [8] ∧
    unmaskCoreWidths (List.replicate 8 0) ≠ specLadderWidths 8 ∧
    websocketMaskWidths (List.replicate 8 0) ≠ specLadderWidths 8 :=
  ⟨by decide, by decide, by decide, by decide, by decide⟩

/-- C9 (amended): the widest tier in the code is the 4-byte word:
`unmask_frame` packs the 4-byte mask into one 32-bit word and XORs whole
words — `⌊n/4⌋` chunks of width 4 — with only the final remainder shorter
than 4 bytes processed byte-wise, and this equals the byte-wise reference;
`websocket_mask` processes purely byte-wise. Neither engine has an 8-byte
tier. -/
theorem unmask_word_tier_four_bytes {m0 m1 m2 m3 : Nat}
    (hm0 : m0 < 256) (hm1 : m1 < 256) (hm2 : m2 < 256) (hm3 : m3 < 256)
    (d : List Nat) (hd : ∀ x ∈ d, x < 256) :
    unmaskCoreWidths d =
      List.replicate (d.length / 4) 4 ++ List.replicate (d.length % 4) 1 ∧
    websocketMaskWidths d = List.replicate d.length 1 ∧
    unmaskCore m0 m1 m2 m3 d = maskBytesFrom [m0, m1, m2, m3] 0 d :=
  ⟨unmaskCoreWidths_eq d, websocketMaskWidths_eq d,
    unmaskCore_eq_maskBytesFrom hm0 hm1 hm2 hm3 d hd⟩

/-- C9 witness: a length-9 buffer: two 4-byte chunks, one remainder byte. -/
theorem unmask_word_tier_four_bytes_witness :
    unmaskCoreWidths [1, 2, 3, 4, 5, 6, 7, 8, 9] =
      List.replicate 2 4 ++ List.replicate 1 1 ∧
    websocketMaskWidths [1, 2, 3, 4, 5, 6, 7, 8, 9] = List.replicate 9 1 ∧
    unmaskCore 18 52 86 120 [1, 2, 3, 4, 5, 6, 7, 8, 9] =
      maskBytesFrom [18, 52, 86, 120] 0 [1, 2, 3, 4, 5, 6, 7, 8, 9] :=
  unmask_word_tier_four_bytes (by decide) (by decide) (by decide) (by decide)
    [1, 2, 3, 4, 5, 6, 7, 8, 9] (by decide)

/-- C10 counterexample: mask `[5]` is shorter than 4 bytes and data `[7]` is
non-empty, yet no mask access is out of bounds — the only access is at index
`0 mod 4 = 0` — and `websocket_mask` succeeds, refuting the claim that some
access is out of bounds for every short mask with non-empty data. -/
theorem short_mask_short_data_in_bounds : websocket_mask [5] [7] = some [2] := by
  decide

/-- C10 witness: a length-2 mask with length-3 data does go out of bounds. -/
theorem websocket_mask_oob_iff_witness :
    websocket_mask [5, 6] [7, 8, 9] = none ↔ 2 < min 3 4 :=
  websocket_mask_oob_iff [5, 6] [7, 8, 9]

end Tornado
